import Mathlib

/-!
Verification of the workflow orchestration engine in
`email-workflow-native/src/core/workflow.ts` against its specification.

The engine is shallowly embedded:

* Runtime JS values the engine inspects are `JSValue` (errors carry a message
  and an optional `causes` list, mirroring `Error` instances; a `verror` with
  `causes = []` stands for an `Error` on which no `causes` property was set).
* A task (`Task`) is a function from its input to a `TaskOutcome`: either a
  returned value or a thrown value, plus the sequence of `log(...)` calls it
  made.  Tasks are the engine's opaque collaborators; the cancellation signal
  handed to each task is never fired by the engine and is omitted.
* Asynchronous execution with exceptions and log-file I/O is embedded as the
  state monad `RunM` over a `World` that records `fs.appendFile` calls and a
  fault plan saying which future append calls reject.
* Wall-clock time (`Date.now()`, `toISOString`) is abstracted to a constant
  clock, so every `durationMs` is `0` and the timestamp line is fixed.  No
  specified property concerns timing values.
* `console.log` echoing under `verbose` is a side channel never read by the
  engine and is not modelled.
-/

set_option autoImplicit false
set_option linter.unusedVariables false

namespace EmailWorkflow

/-- A JavaScript runtime value, restricted to the shapes the engine inspects.
`verror message causes` models an `Error` instance (`instanceof Error`); an
empty `causes` list models an `Error` without a `causes` property. -/
inductive JSValue where
  | vundefined : JSValue
  | vnull : JSValue
  | vbool : Bool → JSValue
  | vnum : Int → JSValue
  | vstr : String → JSValue
  | verror : String → List JSValue → JSValue
  | varr : List JSValue → JSValue
  | vobj : List (String × JSValue) → JSValue

/-- `instanceof Error` test used by `summarizeError` and `createParallelError`. -/
def JSValue.isErrorValue : JSValue → Bool
  | JSValue.verror _ _ => true
  | _ => false

/-- The message of an `Error` value (`error.message`); `""` otherwise. -/
def JSValue.errorMessage : JSValue → String
  | JSValue.verror m _ => m
  | _ => ""

/-- The `causes` list of an `Error` value; `[]` otherwise. -/
def JSValue.errorCauses : JSValue → List JSValue
  | JSValue.verror _ cs => cs
  | _ => []

/-- JSON escaping of one character, as `JSON.stringify` performs it. -/
def jsonEscapeChar (c : Char) : String :=
  if c = '"' then "\\\""
  else if c = '\\' then "\\\\"
  else if c = '\n' then "\\n"
  else String.singleton c

/-- JSON rendering of a string literal. -/
def jsonQuote (s : String) : String :=
  "\"" ++ String.join (s.data.map jsonEscapeChar) ++ "\""

mutual

/-- `JSON.stringify(value, null, 2)` as the engine observes it (workflow.ts:583).
`none` is JavaScript's `undefined` result.  Indentation whitespace is not
reproduced (the engine only ever feeds this text to the log sink and never
reads it back); an `Error` serializes via its enumerable own properties, which
is `causes` when set.  A `JSValue` is acyclic by construction, so the
`catch` branch of `safeJson` (workflow.ts:585-587) is unreachable. -/
def jsonRender : JSValue → Option String
  | JSValue.vundefined => none
  | JSValue.vnull => some "null"
  | JSValue.vbool b => some (cond b "true" "false")
  | JSValue.vnum n => some (toString n)
  | JSValue.vstr s => some (jsonQuote s)
  | JSValue.verror _ causes =>
      match causes with
      | [] => some "\x7b\x7d"
      | cs =>
          some ("\x7b\"causes\": [" ++ String.intercalate ", " (jsonRenderList cs) ++ "]\x7d")
  | JSValue.varr items =>
      some ("[" ++ String.intercalate ", " (jsonRenderList items) ++ "]")
  | JSValue.vobj fields =>
      some ("\x7b" ++ String.intercalate ", " (jsonRenderFields fields) ++ "\x7d")

/-- Array elements: `undefined` renders as `null` inside a JSON array. -/
def jsonRenderList : List JSValue → List String
  | [] => []
  | v :: vs => ((jsonRender v).getD "null") :: jsonRenderList vs

/-- Object fields: keys whose value serializes to `undefined` are omitted. -/
def jsonRenderFields : List (String × JSValue) → List String
  | [] => []
  | (k, v) :: fs =>
      match jsonRender v with
      | none => jsonRenderFields fs
      | some s => (jsonQuote k ++ ": " ++ s) :: jsonRenderFields fs

end

/-- `safeJson` (workflow.ts:581-588): stringify, mapping an `undefined`
result to the string `"undefined"`. -/
def safeJson (value : JSValue) : String :=
  match jsonRender value with
  | none => "undefined"
  | some json => json

/-- `formatLogArg` (workflow.ts:590-601). -/
def formatLogArg (arg : JSValue) : String :=
  match arg with
  | JSValue.vnull => "null"
  | JSValue.vnum n => toString n
  | JSValue.vbool b => cond b "true" "false"
  | JSValue.vundefined => "undefined"
  | JSValue.vstr s => s
  | a => safeJson a

/-- `summarizeError` (workflow.ts:603-607). -/
def summarizeError (error : JSValue) : String :=
  match error with
  | JSValue.verror m _ => m
  | JSValue.vstr s => s
  | e => safeJson e

/-- `TraceEntry` (workflow.ts:13-20).  An inductive because composite entries
nest their branch attempts as children. -/
inductive TraceEntry where
  | mk : String → Nat → Bool → Option JSValue → Option (List TraceEntry) →
      Option String → TraceEntry

def TraceEntry.name : TraceEntry → String
  | TraceEntry.mk n _ _ _ _ _ => n

def TraceEntry.durationMs : TraceEntry → Nat
  | TraceEntry.mk _ d _ _ _ _ => d

def TraceEntry.ok : TraceEntry → Bool
  | TraceEntry.mk _ _ o _ _ _ => o

def TraceEntry.error : TraceEntry → Option JSValue
  | TraceEntry.mk _ _ _ e _ _ => e

def TraceEntry.children : TraceEntry → Option (List TraceEntry)
  | TraceEntry.mk _ _ _ _ c _ => c

def TraceEntry.notes : TraceEntry → Option String
  | TraceEntry.mk _ _ _ _ _ n => n

/-- `RunResult` (workflow.ts:28). -/
structure RunResult where
  output : JSValue
  trace : List TraceEntry

/-- A value thrown out of a run: either the structured `{trace, error}` object
built by `throwWithTrace` (workflow.ts:535-541), or a raw exception the engine
never shaped (the only such source on the run path is a rejected
`fs.appendFile` inside `appendLog`, which nothing catches). -/
inductive Thrown where
  | structured : List TraceEntry → JSValue → Thrown
  | raw : JSValue → Thrown

/-- The world visible to the run: the data appended to log files so far, and
the fault plan for future `fs.appendFile` calls (`none` = the call resolves;
`some e` = it rejects with `e`; an exhausted plan means all later calls
resolve). -/
structure World where
  faults : List (Option JSValue)
  fileWrites : List (String × String)

/-- The run monad: JavaScript async execution with exceptions, over `World`. -/
def RunM (α : Type) : Type := World → Except Thrown α × World

def RunM.pure {α : Type} (a : α) : RunM α := fun w => (Except.ok a, w)

def RunM.bind {α β : Type} (x : RunM α) (f : α → RunM β) : RunM β := fun w =>
  match x w with
  | (Except.ok a, w1) => f a w1
  | (Except.error t, w1) => (Except.error t, w1)

instance : Monad RunM where
  pure := RunM.pure
  bind := RunM.bind

/-- `WorkflowOptions` (workflow.ts:22-26). -/
structure WorkflowOptions where
  logDir : Option String
  logFile : Option String
  verbose : Bool

/-- Outcome of invoking one task: the value it returned or the value it threw,
plus the argument lists of its `log(...)` calls in order. -/
structure TaskOutcome where
  result : Except JSValue JSValue
  logCalls : List (List JSValue)

/-- `Task` (workflow.ts:7-11), monomorphized over runtime values.  The
`AbortSignal` each attempt receives is fresh and never fired by the engine, so
it does not appear in the embedding. -/
def Task : Type := JSValue → TaskOutcome

/-- One buffered log line: `[label] args.map(formatLogArg).join(' ')`
(workflow.ts:488-492). -/
def renderLogLine (logLabel : String) (args : List JSValue) : String :=
  "[" ++ logLabel ++ "] " ++ String.intercalate " " (args.map formatLogArg)

/-- `TaskAttemptResult` (workflow.ts:452-468), the discriminated union
returned by `runTaskAttempt`. -/
inductive TaskAttemptResult where
  | success : JSValue → Nat → List String → TraceEntry → TaskAttemptResult
  | failure : JSValue → Nat → List String → TraceEntry → TaskAttemptResult

def TaskAttemptResult.ok : TaskAttemptResult → Bool
  | TaskAttemptResult.success _ _ _ _ => true
  | TaskAttemptResult.failure _ _ _ _ => false

def TaskAttemptResult.durationMs : TaskAttemptResult → Nat
  | TaskAttemptResult.success _ d _ _ => d
  | TaskAttemptResult.failure _ d _ _ => d

def TaskAttemptResult.logLines : TaskAttemptResult → List String
  | TaskAttemptResult.success _ _ ls _ => ls
  | TaskAttemptResult.failure _ _ ls _ => ls

def TaskAttemptResult.traceEntry : TaskAttemptResult → TraceEntry
  | TaskAttemptResult.success _ _ _ e => e
  | TaskAttemptResult.failure _ _ _ e => e

/-- The leaf trace entry of a successful attempt (workflow.ts:506-510). -/
def okLeafEntry (name : String) : TraceEntry :=
  TraceEntry.mk name 0 true none none none

/-- The leaf trace entry of a failed attempt (workflow.ts:519-524). -/
def failLeafEntry (name : String) (error : JSValue) : TraceEntry :=
  TraceEntry.mk name 0 false (some error) none none

/-- `runTaskAttempt` (workflow.ts:478-527): runs the task once inside
`try/catch`, so it always returns an attempt and never lets the task's
exception escape.  The `opts` parameter only controls the `verbose` console
echo, a side channel not modelled. -/
def runTaskAttempt (name logLabel : String) (task : Task) (input : JSValue)
    (opts : WorkflowOptions) : TaskAttemptResult :=
  let outcome := task input
  let logLines := outcome.logCalls.map (renderLogLine logLabel)
  match outcome.result with
  | Except.ok output =>
      TaskAttemptResult.success output 0 logLines (okLeafEntry name)
  | Except.error error =>
      TaskAttemptResult.failure error 0 logLines (failLeafEntry name error)

/-- `Workflow.appendLog` (workflow.ts:192-197): returns immediately when no
`logDir` is configured; otherwise resolves the target path and calls
`fs.appendFile`, whose rejection (drawn from the world's fault plan) is NOT
caught anywhere — it propagates as a raw exception. -/
def appendLog (opts : WorkflowOptions) (lines : List String) : RunM Unit :=
  fun w =>
    match opts.logDir with
    | none => (Except.ok (), w)
    | some dir =>
        let fileName := opts.logFile.getD "pipeline.log"
        let filePath := dir ++ "/" ++ fileName
        let data := String.intercalate "\n" lines ++ "\n"
        match w.faults with
        | [] =>
            (Except.ok (), { faults := [], fileWrites := w.fileWrites ++ [(filePath, data)] })
        | none :: rest =>
            (Except.ok (), { faults := rest, fileWrites := w.fileWrites ++ [(filePath, data)] })
        | some e :: rest =>
            (Except.error (Thrown.raw e), { faults := rest, fileWrites := w.fileWrites })

/-- The constant this model substitutes for `new Date().toISOString()`. -/
def isoTimestamp : String := "1970-01-01T00:00:00.000Z"

/-- `createSectionHeader` (workflow.ts:543-551). -/
def createSectionHeader (kind name : String) (input : JSValue) : List String :=
  ["",
   "-------------- " ++ kind ++ ": " ++ name ++ " --------------",
   "[TIME] " ++ isoTimestamp,
   "[INPUT] " ++ safeJson input,
   ""]

/-- `createSuccessFooter` (workflow.ts:553-565). -/
def createSuccessFooter (kind name : String) (output : JSValue) (durationMs : Nat) :
    List String :=
  ["",
   "[OUTPUT] " ++ safeJson output,
   "-------------- END " ++ kind ++ ": " ++ name ++ " (" ++ toString durationMs ++
     "ms) --------------",
   ""]

/-- `createFailureFooter` (workflow.ts:567-579). -/
def createFailureFooter (kind name : String) (error : JSValue) (durationMs : Nat) :
    List String :=
  ["",
   "[ERROR] " ++ summarizeError error,
   "-------------- END " ++ kind ++ ": " ++ name ++ " (FAILED) --------------",
   ""]

/-- `throwWithTrace` (workflow.ts:535-541): throws the structured
`{trace: [...prevTrace, entry], error}` object. -/
def throwWithTrace {α : Type} (prevTrace : List TraceEntry) (entry : TraceEntry)
    (error : JSValue) : RunM α :=
  fun w => (Except.error (Thrown.structured (prevTrace ++ [entry]) error), w)

/-- The type of the execution function a `Workflow` wraps
(`(input) => Promise<RunResult>`, workflow.ts:64). -/
def Fn : Type := JSValue → RunM RunResult

/-- `createSerialRunner` (workflow.ts:208-239). -/
def createSerialRunner (name : String) (task : Task) (opts : WorkflowOptions)
    (previous : Fn) : Fn :=
  fun input =>
    RunM.bind (previous input) fun prev =>
      let header := createSectionHeader "STEP" name prev.output
      let attempt := runTaskAttempt name name task prev.output opts
      match attempt with
      | TaskAttemptResult.success output durationMs logLines traceEntry =>
          RunM.bind
            (appendLog opts
              (header ++ logLines ++ createSuccessFooter "STEP" name output durationMs))
            fun _ => RunM.pure { output := output, trace := prev.trace ++ [traceEntry] }
      | TaskAttemptResult.failure error durationMs logLines traceEntry =>
          RunM.bind
            (appendLog opts
              (header ++ logLines ++ createFailureFooter "STEP" name error durationMs))
            fun _ => throwWithTrace prev.trace traceEntry error

/-- `createFallbackRunner` (workflow.ts:250-346). -/
def createFallbackRunner (name : String) (primaryTask fallbackTask : Task)
    (opts : WorkflowOptions) (previous : Fn) : Fn :=
  fun input =>
    RunM.bind (previous input) fun prev =>
      let header := createSectionHeader "FALLBACK" name prev.output
      let primaryAttempt :=
        runTaskAttempt (name ++ "::primary") (name ++ "::primary") primaryTask
          prev.output opts
      match primaryAttempt with
      | TaskAttemptResult.success output _ primaryLogs primaryEntry =>
          let body := primaryLogs ++ ["[FALLBACK] Primary succeeded; fallback skipped."]
          let entry : TraceEntry :=
            TraceEntry.mk name 0 true none (some [primaryEntry])
              (some "Primary task succeeded; fallback not executed.")
          RunM.bind
            (appendLog opts
              (header ++ body ++ createSuccessFooter "FALLBACK" name output 0))
            fun _ => RunM.pure { output := output, trace := prev.trace ++ [entry] }
      | TaskAttemptResult.failure primaryError _ primaryLogs primaryEntry =>
          let body0 := primaryLogs ++
            ["[FALLBACK] Primary failed: " ++ summarizeError primaryError ++
              ". Executing fallback."]
          let fallbackAttempt :=
            runTaskAttempt (name ++ "::fallback") (name ++ "::fallback") fallbackTask
              prev.output opts
          let body := body0 ++ fallbackAttempt.logLines
          match fallbackAttempt with
          | TaskAttemptResult.success output _ _ fallbackEntry =>
              let entry : TraceEntry :=
                TraceEntry.mk name 0 true none (some [primaryEntry, fallbackEntry])
                  (some ("Fallback executed after primary failure: " ++
                    summarizeError primaryError))
              RunM.bind
                (appendLog opts
                  (header ++ body ++ createSuccessFooter "FALLBACK" name output 0))
                fun _ => RunM.pure { output := output, trace := prev.trace ++ [entry] }
          | TaskAttemptResult.failure fallbackError _ _ fallbackEntry =>
              let entry : TraceEntry :=
                TraceEntry.mk name 0 false (some fallbackError)
                  (some [primaryEntry, fallbackEntry])
                  (some ("Fallback failed after primary failure: " ++
                    summarizeError primaryError))
              RunM.bind
                (appendLog opts
                  (header ++ body ++ createFailureFooter "FALLBACK" name fallbackError 0))
                fun _ => throwWithTrace prev.trace entry fallbackError

/-- `createParallelError` (workflow.ts:609-632): one failing branch surfaces
its own error (wrapped in a fresh `Error` only when it was not an `Error`
instance); several failing branches surface an aggregate `Error` whose message
enumerates each failing key with its summary and whose `causes` property holds
the raw branch errors in the same order. -/
def createParallelError (name : String) (failures : List (String × JSValue)) : JSValue :=
  match failures with
  | [(key, error)] =>
      match error with
      | JSValue.verror m cs => JSValue.verror m cs
      | e =>
          JSValue.verror
            ("Parallel branch \"" ++ key ++ "\" failed: " ++ summarizeError e) []
  | _ =>
      let messageLines :=
        ("Parallel step \"" ++ name ++ "\" failed in " ++
          toString failures.length ++ " branches:") ::
        failures.map (fun p => "- " ++ p.1 ++ ": " ++ summarizeError p.2)
      JSValue.verror (String.intercalate "\n" messageLines) (failures.map Prod.snd)

/-- The `[PARALLEL] Branch ...` status line (workflow.ts:386-388). -/
def parallelBranchLine (key : String) (attempt : TaskAttemptResult) : String :=
  "[PARALLEL] Branch " ++ key ++ " (" ++ (cond attempt.ok "ok" "error") ++
    ") completed in " ++ toString attempt.durationMs ++ "ms."

/-- The parallel log body (workflow.ts:383-390): one block per branch, blank
line between consecutive blocks. -/
def parallelBody (attempts : List (String × TaskAttemptResult)) : List String :=
  match attempts with
  | [] => []
  | first :: rest =>
      (parallelBranchLine first.1 first.2 :: first.2.logLines) ++
        (rest.map (fun p => "" :: parallelBranchLine p.1 p.2 :: p.2.logLines)).flatten

/-- One entry of `branchAttempts` (workflow.ts:370-381): the branch key with
the attempt of its task on the shared upstream output. -/
def branchAttempt (name : String) (x : JSValue) (opts : WorkflowOptions)
    (p : String × Task) : String × TaskAttemptResult :=
  (p.1, runTaskAttempt (name ++ "::" ++ p.1) (name ++ "::" ++ p.1) p.2 x opts)

/-- The failing-branch extraction (workflow.ts:395-403): `isFailure` filter
followed by the `{key, error}` projection, fused as one `filterMap`. -/
def attemptFailurePair (p : String × TaskAttemptResult) : Option (String × JSValue) :=
  match p.2 with
  | TaskAttemptResult.failure e _ _ _ => some (p.1, e)
  | _ => none

/-- The aggregated-output entry of one branch (workflow.ts:406-411): only ok
attempts contribute their key and output. -/
def attemptSuccessPair (p : String × TaskAttemptResult) : Option (String × JSValue) :=
  match p.2 with
  | TaskAttemptResult.success o _ _ _ => some (p.1, o)
  | _ => none

/-- `createParallelRunner` (workflow.ts:357-450).  `tasks` is the ordered
association list of own keys of the task mapping; `Promise.all` over
`taskKeys.map` keeps declaration order, which the sequencing here mirrors
(each branch's effects are confined to its own attempt record). -/
def createParallelRunner (name : String) (tasks : List (String × Task))
    (opts : WorkflowOptions) (previous : Fn) : Fn :=
  fun input =>
    RunM.bind (previous input) fun prev =>
      let header := createSectionHeader "PARALLEL" name prev.output
      let branchAttempts := tasks.map (branchAttempt name prev.output opts)
      let body := parallelBody branchAttempts
      let children := branchAttempts.map fun p => p.2.traceEntry
      let failures := branchAttempts.filterMap attemptFailurePair
      if failures.isEmpty then
        let aggregatedOutput := JSValue.vobj (branchAttempts.filterMap attemptSuccessPair)
        let entry : TraceEntry := TraceEntry.mk name 0 true none (some children) none
        RunM.bind
          (appendLog opts
            (header ++ body ++ createSuccessFooter "PARALLEL" name aggregatedOutput 0))
          fun _ =>
            RunM.pure { output := aggregatedOutput, trace := prev.trace ++ [entry] }
      else
        let body2 := body ++
          ["", "[PARALLEL] " ++ toString failures.length ++
            " branch(es) failed in group \"" ++ name ++ "\"."]
        let error := createParallelError name failures
        let entry : TraceEntry :=
          TraceEntry.mk name 0 false (some error) (some children) none
        RunM.bind
          (appendLog opts
            (header ++ body2 ++ createFailureFooter "PARALLEL" name error 0))
          fun _ => throwWithTrace prev.trace entry error

/-- `WorkflowGraphNodeKind` (workflow.ts:30-39). -/
inductive WorkflowGraphNodeKind where
  | start
  | step
  | parallelGroup
  | parallelBranch
  | parallelJoin
  | fallbackGroup
  | fallbackPrimary
  | fallbackSecondary
  | fallbackJoin
deriving DecidableEq

/-- The string literal of each kind, used to mint node ids. -/
def WorkflowGraphNodeKind.label : WorkflowGraphNodeKind → String
  | WorkflowGraphNodeKind.start => "start"
  | WorkflowGraphNodeKind.step => "step"
  | WorkflowGraphNodeKind.parallelGroup => "parallel-group"
  | WorkflowGraphNodeKind.parallelBranch => "parallel-branch"
  | WorkflowGraphNodeKind.parallelJoin => "parallel-join"
  | WorkflowGraphNodeKind.fallbackGroup => "fallback-group"
  | WorkflowGraphNodeKind.fallbackPrimary => "fallback-primary"
  | WorkflowGraphNodeKind.fallbackSecondary => "fallback-secondary"
  | WorkflowGraphNodeKind.fallbackJoin => "fallback-join"

/-- `WorkflowGraphNode` (workflow.ts:41-46). -/
structure WorkflowGraphNode where
  id : String
  name : String
  kind : WorkflowGraphNodeKind
  metadata : Option (List (String × JSValue))

/-- `WorkflowGraphEdge` (workflow.ts:48-52). -/
structure WorkflowGraphEdge where
  src : String
  dst : String
  label : Option String

/-- `WorkflowGraphSnapshot` (workflow.ts:54-57). -/
structure WorkflowGraphSnapshot where
  nodes : List WorkflowGraphNode
  edges : List WorkflowGraphEdge

/-- The mutable state of a `WorkflowGraphBuilder` instance (workflow.ts:634-637):
an id counter, the node table in insertion order, and the edge list. -/
structure WorkflowGraphBuilder where
  counter : Nat
  nodes : List WorkflowGraphNode
  edges : List WorkflowGraphEdge

/-- `WorkflowGraphBuilder.addNode` (workflow.ts:639-651): mints
`` `${kind}-${++counter}` `` (no caller passes an explicit id), throws on a
duplicate id (`none` here), otherwise records the node and returns its id. -/
def WorkflowGraphBuilder.addNode (b : WorkflowGraphBuilder)
    (kind : WorkflowGraphNodeKind) (name : String)
    (metadata : Option (List (String × JSValue))) :
    Option (String × WorkflowGraphBuilder) :=
  let id := kind.label ++ "-" ++ toString (b.counter + 1)
  if b.nodes.any (fun n => n.id = id) then none
  else
    some (id,
      { counter := b.counter + 1,
        nodes := b.nodes ++ [{ id := id, name := name, kind := kind, metadata := metadata }],
        edges := b.edges })

/-- `WorkflowGraphBuilder.addEdge` (workflow.ts:653-655). -/
def WorkflowGraphBuilder.addEdge (b : WorkflowGraphBuilder)
    (src dst : String) (label : Option String) : WorkflowGraphBuilder :=
  { counter := b.counter, nodes := b.nodes,
    edges := b.edges ++ [{ src := src, dst := dst, label := label }] }

/-- `WorkflowGraphBuilder.snapshot` (workflow.ts:657-662). -/
def WorkflowGraphBuilder.snapshot (b : WorkflowGraphBuilder) : WorkflowGraphSnapshot :=
  { nodes := b.nodes, edges := b.edges }

/-- `registerStepGraph` (workflow.ts:700-708). -/
def registerStepGraph (b : WorkflowGraphBuilder) (tailNodeId name : String) :
    Option (String × WorkflowGraphBuilder) :=
  match b.addNode WorkflowGraphNodeKind.step name none with
  | none => none
  | some (nodeId, b1) => some (nodeId, b1.addEdge tailNodeId nodeId none)

/-- `registerFallbackGraph` (workflow.ts:710-735); returns the join node id. -/
def registerFallbackGraph (b : WorkflowGraphBuilder) (tailNodeId name : String) :
    Option (String × WorkflowGraphBuilder) := do
  let (groupId, b1) ← b.addNode WorkflowGraphNodeKind.fallbackGroup name none
  let (primaryId, b2) ← b1.addNode WorkflowGraphNodeKind.fallbackPrimary
    (name ++ "::primary") (some [("role", JSValue.vstr "primary")])
  let (fallbackId, b3) ← b2.addNode WorkflowGraphNodeKind.fallbackSecondary
    (name ++ "::fallback") (some [("role", JSValue.vstr "fallback")])
  let (joinId, b4) ← b3.addNode WorkflowGraphNodeKind.fallbackJoin (name ++ "::join") none
  let b5 := (((((b4.addEdge tailNodeId groupId none).addEdge groupId primaryId
    (some "primary")).addEdge groupId fallbackId (some "fallback")).addEdge
    primaryId joinId none).addEdge fallbackId joinId none)
  some (joinId, b5)

/-- `registerParallelGraph` (workflow.ts:737-758); returns the join node id. -/
def registerParallelGraph (b : WorkflowGraphBuilder) (tailNodeId name : String)
    (branchKeys : List String) : Option (String × WorkflowGraphBuilder) := do
  let (groupId, b1) ← b.addNode WorkflowGraphNodeKind.parallelGroup name none
  let (joinId, b2) ← b1.addNode WorkflowGraphNodeKind.parallelJoin (name ++ "::join") none
  let b3 := b2.addEdge tailNodeId groupId none
  let b4 ← branchKeys.foldlM
    (fun acc key => do
      let (branchId, acc1) ← acc.addNode WorkflowGraphNodeKind.parallelBranch
        (name ++ "::" ++ key) (some [("branch", JSValue.vstr key)])
      some ((acc1.addEdge groupId branchId (some key)).addEdge branchId joinId none))
    b3
  some (joinId, b4)

/-- The heap of live `WorkflowGraphBuilder` objects.  Chaining calls hand the
same builder reference to the workflow they return (workflow.ts:110), so the
builder is shared mutable state; the heap makes that aliasing explicit. -/
abbrev Heap : Type := List WorkflowGraphBuilder

def emptyBuilder : WorkflowGraphBuilder := { counter := 0, nodes := [], edges := [] }

def heapGet (heap : Heap) (ref : Nat) : WorkflowGraphBuilder :=
  heap.getD ref emptyBuilder

/-- The `Workflow` value (workflow.ts:63-79): the composed execution function,
the shared options, the (shared, by reference) graph builder, and the current
tail node id.  All four fields are `private readonly` and never reassigned in
the source. -/
structure Workflow where
  fn : Fn
  opts : WorkflowOptions
  graphBuilder : Nat
  tailNodeId : String

def defaultOptions : WorkflowOptions :=
  { logDir := none, logFile := none, verbose := false }

/-- The execution function of a freshly started workflow
(`async () => ({output: undefined, trace: []})`, workflow.ts:85). -/
def startFn : Fn :=
  fun _ => RunM.pure { output := JSValue.vundefined, trace := [] }

/-- `Workflow.start` (workflow.ts:81-90): allocates a fresh builder with a
single root node. -/
def Workflow.start (opts : Option WorkflowOptions) (heap : Heap) :
    Option (Workflow × Heap) :=
  match emptyBuilder.addNode WorkflowGraphNodeKind.start "Start" none with
  | none => none
  | some (startNodeId, b1) =>
      some ({ fn := startFn, opts := opts.getD defaultOptions,
              graphBuilder := heap.length, tailNodeId := startNodeId },
            heap ++ [b1])

/-- `Workflow.input` (workflow.ts:92-99): same builder, options and tail, with
a reset execution function. -/
def Workflow.input (w : Workflow) : Workflow :=
  { fn := startFn, opts := w.opts, graphBuilder := w.graphBuilder,
    tailNodeId := w.tailNodeId }

/-- `Workflow.step` (workflow.ts:101-111): composes a serial runner over the
current execution function and registers one step node on the SHARED builder. -/
def Workflow.step (w : Workflow) (name : String) (task : Task) (heap : Heap) :
    Option (Workflow × Heap) :=
  let nextFn := createSerialRunner name task w.opts w.fn
  match registerStepGraph (heapGet heap w.graphBuilder) w.tailNodeId name with
  | none => none
  | some (nextTail, b1) =>
      some ({ fn := nextFn, opts := w.opts, graphBuilder := w.graphBuilder,
              tailNodeId := nextTail },
            heap.set w.graphBuilder b1)

/-- `Workflow.fallback` (workflow.ts:113-132). -/
def Workflow.fallback (w : Workflow) (name : String) (primaryTask fallbackTask : Task)
    (heap : Heap) : Option (Workflow × Heap) :=
  let nextFn := createFallbackRunner name primaryTask fallbackTask w.opts w.fn
  match registerFallbackGraph (heapGet heap w.graphBuilder) w.tailNodeId name with
  | none => none
  | some (joinId, b1) =>
      some ({ fn := nextFn, opts := w.opts, graphBuilder := w.graphBuilder,
              tailNodeId := joinId },
            heap.set w.graphBuilder b1)

/-- `Workflow.parallel` (workflow.ts:134-160): throws (`none`) on an empty
task mapping before building anything. -/
def Workflow.parallel (w : Workflow) (name : String) (tasks : List (String × Task))
    (heap : Heap) : Option (Workflow × Heap) :=
  if tasks.isEmpty then none
  else
    let nextFn := createParallelRunner name tasks w.opts w.fn
    match registerParallelGraph (heapGet heap w.graphBuilder) w.tailNodeId name
      (tasks.map Prod.fst) with
    | none => none
    | some (joinId, b1) =>
        some ({ fn := nextFn, opts := w.opts, graphBuilder := w.graphBuilder,
                tailNodeId := joinId },
              heap.set w.graphBuilder b1)

/-- `Workflow.tap` (workflow.ts:162-167): a step whose task invokes the side
effect and passes its input through. -/
def Workflow.tap (w : Workflow) (name : String) (f : JSValue → Except JSValue Unit)
    (heap : Heap) : Option (Workflow × Heap) :=
  w.step name
    (fun input => { result := (f input).map (fun _ => input), logCalls := [] }) heap

/-- `Workflow.getGraphSnapshot` (workflow.ts:169-171): reads the CURRENT state
of the shared builder. -/
def Workflow.getGraphSnapshot (w : Workflow) (heap : Heap) : WorkflowGraphSnapshot :=
  (heapGet heap w.graphBuilder).snapshot

/-- `Workflow.run` (workflow.ts:187-190). -/
def Workflow.run (w : Workflow) (input : JSValue) : RunM RunResult :=
  w.fn input

/-- One stage of a chain, as declared by a chaining call. -/
inductive Stage where
  | step : String → Task → Stage
  | fallback : String → Task → Task → Stage
  | parallel : String → List (String × Task) → Stage

/-- The runner a chaining call composes for one stage. -/
def stageRunner (opts : WorkflowOptions) (s : Stage) (previous : Fn) : Fn :=
  match s with
  | Stage.step name task => createSerialRunner name task opts previous
  | Stage.fallback name p f => createFallbackRunner name p f opts previous
  | Stage.parallel name tasks => createParallelRunner name tasks opts previous

/-- The execution function obtained by chaining `stages` (left to right) onto
the execution function `base` — exactly what the sequence of chaining calls on
a `Workflow` builds (each call wraps the previous `fn`). -/
def buildFrom (opts : WorkflowOptions) (base : Fn) : List Stage → Fn
  | [] => base
  | s :: rest => buildFrom opts (stageRunner opts s base) rest

/-- A plain sequential stage from a (name, task) pair. -/
def stepStage (p : String × Task) : Stage := Stage.step p.1 p.2

/-- The `RunResult` a freshly started workflow resolves to. -/
def startResult : RunResult := { output := JSValue.vundefined, trace := [] }

/-- Reference semantics of a chain of sequential stages: thread each task's
output into the next, extending the trace with one leaf entry per stage, and
stop at the first failing task with the accumulated trace and its error.
Proven below to be exactly what `createSerialRunner` chains compute. -/
def chainSpec (r : RunResult) :
    List (String × Task) → Except (List TraceEntry × JSValue) RunResult
  | [] => Except.ok r
  | (n, t) :: rest =>
      match (t r.output).result with
      | Except.ok o => chainSpec { output := o, trace := r.trace ++ [okLeafEntry n] } rest
      | Except.error e => Except.error (r.trace ++ [failLeafEntry n e], e)

/-- Embeds a chain outcome into the run monad's exception type (a failing
chain throws the structured `{trace, error}` object). -/
def liftChain : Except (List TraceEntry × JSValue) RunResult → Except Thrown RunResult
  | Except.ok r => Except.ok r
  | Except.error (tr, e) => Except.error (Thrown.structured tr e)

theorem RunM.bind_apply {α β : Type} (x : RunM α) (f : α → RunM β) (w : World) :
    RunM.bind x f w =
      match x w with
      | (Except.ok a, w1) => f a w1
      | (Except.error t, w1) => (Except.error t, w1) := rfl

theorem RunM.pure_apply {α : Type} (a : α) (w : World) :
    RunM.pure a w = (Except.ok a, w) := rfl

/-- With no configured `logDir`, `appendLog` is a no-op (workflow.ts:193). -/
theorem appendLog_no_logDir (opts : WorkflowOptions) (lines : List String)
    (w : World) (h : opts.logDir = none) :
    appendLog opts lines w = (Except.ok (), w) := by
  simp [appendLog, h]

/-- In a world whose fault plan is exhausted (every append call resolves),
`appendLog` succeeds and leaves the fault plan exhausted. -/
theorem appendLog_faultFree (opts : WorkflowOptions) (lines : List String)
    (w : World) (h : w.faults = []) :
    ∃ w', appendLog opts lines w = (Except.ok (), w') ∧ w'.faults = [] := by
  cases hd : opts.logDir with
  | none => exact ⟨w, appendLog_no_logDir opts lines w hd, h⟩
  | some dir =>
      refine ⟨{ faults := [], fileWrites := w.fileWrites ++ [(dir ++ "/" ++ opts.logFile.getD "pipeline.log", String.intercalate "\n" lines ++ "\n")] }, ?_, rfl⟩
      simp [appendLog, hd, h]

/-- With a configured `logDir` and a rejecting `fs.appendFile`, `appendLog`
rejects with the raw fs error. -/
theorem appendLog_fault (opts : WorkflowOptions) (lines : List String)
    (w : World) (dir : String) (e : JSValue) (rest : List (Option JSValue))
    (hd : opts.logDir = some dir) (hf : w.faults = some e :: rest) :
    appendLog opts lines w =
      (Except.error (Thrown.raw e), { faults := rest, fileWrites := w.fileWrites }) := by
  simp [appendLog, hd, hf]

theorem runTaskAttempt_ok (name logLabel : String) (task : Task) (input : JSValue)
    (opts : WorkflowOptions) (o : JSValue) (h : (task input).result = Except.ok o) :
    runTaskAttempt name logLabel task input opts =
      TaskAttemptResult.success o 0 ((task input).logCalls.map (renderLogLine logLabel))
        (okLeafEntry name) := by
  simp [runTaskAttempt, h]

theorem runTaskAttempt_error (name logLabel : String) (task : Task) (input : JSValue)
    (opts : WorkflowOptions) (e : JSValue) (h : (task input).result = Except.error e) :
    runTaskAttempt name logLabel task input opts =
      TaskAttemptResult.failure e 0 ((task input).logCalls.map (renderLogLine logLabel))
        (failLeafEntry name e) := by
  simp [runTaskAttempt, h]

/-- A failed `previous` stage propagates through `createSerialRunner`
unchanged (`await previous(input)` rethrows). -/
theorem createSerialRunner_propagate (name : String) (task : Task)
    (opts : WorkflowOptions) (previous : Fn) (input : JSValue) (w w₁ : World)
    (th : Thrown) (h : previous input w = (Except.error th, w₁)) :
    createSerialRunner name task opts previous input w = (Except.error th, w₁) := by
  simp [createSerialRunner, RunM.bind_apply, h]

/-- Serial stage, task succeeds, fault-free log sink: the runner resolves with
the task's output and one appended ok leaf entry. -/
theorem createSerialRunner_ok (name : String) (task : Task) (opts : WorkflowOptions)
    (previous : Fn) (input : JSValue) (w w₁ : World) (r : RunResult) (o : JSValue)
    (hprev : previous input w = (Except.ok r, w₁)) (hf : w₁.faults = [])
    (htask : (task r.output).result = Except.ok o) :
    ∃ w₂, createSerialRunner name task opts previous input w =
      (Except.ok { output := o, trace := r.trace ++ [okLeafEntry name] }, w₂) ∧
      w₂.faults = [] := by
  obtain ⟨w₂, happ, hf₂⟩ := appendLog_faultFree opts
    (createSectionHeader "STEP" name r.output ++
      ((task r.output).logCalls.map (renderLogLine name) ++
        createSuccessFooter "STEP" name o 0)) w₁ hf
  refine ⟨w₂, ?_, hf₂⟩
  simp [createSerialRunner, RunM.bind_apply, hprev,
    runTaskAttempt_ok name name task r.output opts o htask, happ, RunM.pure_apply]

/-- Serial stage, task fails, fault-free log sink: the runner throws the
structured `{trace, error}` object with one appended failing leaf entry. -/
theorem createSerialRunner_fail (name : String) (task : Task) (opts : WorkflowOptions)
    (previous : Fn) (input : JSValue) (w w₁ : World) (r : RunResult) (e : JSValue)
    (hprev : previous input w = (Except.ok r, w₁)) (hf : w₁.faults = [])
    (htask : (task r.output).result = Except.error e) :
    ∃ w₂, createSerialRunner name task opts previous input w =
      (Except.error (Thrown.structured (r.trace ++ [failLeafEntry name e]) e), w₂) ∧
      w₂.faults = [] := by
  obtain ⟨w₂, happ, hf₂⟩ := appendLog_faultFree opts
    (createSectionHeader "STEP" name r.output ++
      ((task r.output).logCalls.map (renderLogLine name) ++
        createFailureFooter "STEP" name e 0)) w₁ hf
  refine ⟨w₂, ?_, hf₂⟩
  simp [createSerialRunner, RunM.bind_apply, hprev,
    runTaskAttempt_error name name task r.output opts e htask, happ, throwWithTrace]

/-- Every stage runner propagates a failure of its `previous` function
unchanged (each begins with `await previous(input)`). -/
theorem stageRunner_propagate (opts : WorkflowOptions) (s : Stage) (previous : Fn)
    (input : JSValue) (w w₁ : World) (th : Thrown)
    (h : previous input w = (Except.error th, w₁)) :
    stageRunner opts s previous input w = (Except.error th, w₁) := by
  cases s with
  | step name task => exact createSerialRunner_propagate name task opts previous input w w₁ th h
  | fallback name p f => simp [stageRunner, createFallbackRunner, RunM.bind_apply, h]
  | parallel name tasks => simp [stageRunner, createParallelRunner, RunM.bind_apply, h]

theorem buildFrom_propagate (opts : WorkflowOptions) (stages : List Stage) :
    ∀ (base : Fn) (input : JSValue) (w w₁ : World) (th : Thrown),
      base input w = (Except.error th, w₁) →
      buildFrom opts base stages input w = (Except.error th, w₁) := by
  induction stages with
  | nil => intro base input w w₁ th h; simpa [buildFrom] using h
  | cons s rest ih =>
      intro base input w w₁ th h
      simpa [buildFrom] using
        ih (stageRunner opts s base) input w w₁ th
          (stageRunner_propagate opts s base input w w₁ th h)

/-- A chain of plain sequential stages computes exactly `chainSpec`
(fault-free log sink). -/
theorem buildSteps_eq_chainSpec (opts : WorkflowOptions) (tasks : List (String × Task)) :
    ∀ (base : Fn) (input : JSValue) (w w₁ : World) (r : RunResult),
      base input w = (Except.ok r, w₁) → w₁.faults = [] →
      ∃ w₂, buildFrom opts base (tasks.map stepStage) input w =
        (liftChain (chainSpec r tasks), w₂) ∧ w₂.faults = [] := by
  induction tasks with
  | nil =>
      intro base input w w₁ r hbase hf
      exact ⟨w₁, by simpa [buildFrom, chainSpec, liftChain] using hbase, hf⟩
  | cons p rest ih =>
      intro base input w w₁ r hbase hf
      obtain ⟨n, t⟩ := p
      cases htask : (t r.output).result with
      | ok o =>
          obtain ⟨w₂, hser, hf₂⟩ :=
            createSerialRunner_ok n t opts base input w w₁ r o hbase hf htask
          obtain ⟨w₃, hrest, hf₃⟩ :=
            ih (createSerialRunner n t opts base) input w w₂
              { output := o, trace := r.trace ++ [okLeafEntry n] } hser hf₂
          exact ⟨w₃, by simpa [buildFrom, stepStage, chainSpec, htask] using hrest, hf₃⟩
      | error e =>
          obtain ⟨w₂, hser, hf₂⟩ :=
            createSerialRunner_fail n t opts base input w w₁ r e hbase hf htask
          refine ⟨w₂, ?_, hf₂⟩
          have hprop := buildFrom_propagate opts (rest.map stepStage)
            (createSerialRunner n t opts base) input w w₂
            (Thrown.structured (r.trace ++ [failLeafEntry n e]) e) hser
          simpa [buildFrom, stepStage, chainSpec, htask, liftChain] using hprop

/-- Shape of a fully successful chain: one ok leaf entry per task, named in
declaration order. -/
theorem chainSpec_ok_shape (tasks : List (String × Task)) :
    ∀ (r r' : RunResult), chainSpec r tasks = Except.ok r' →
    ∃ es, r'.trace = r.trace ++ es ∧ es.length = tasks.length ∧
      es.map TraceEntry.name = tasks.map Prod.fst ∧ ∀ e ∈ es, e.ok = true := by
  induction tasks with
  | nil =>
      intro r r' h
      refine ⟨[], ?_, rfl, rfl, by simp⟩
      simp [chainSpec] at h
      simp [← h]
  | cons p rest ih =>
      intro r r' h
      obtain ⟨n, t⟩ := p
      cases htask : (t r.output).result with
      | ok o =>
          rw [chainSpec, htask] at h
          obtain ⟨es', htr, hlen, hnames, hok⟩ :=
            ih { output := o, trace := r.trace ++ [okLeafEntry n] } r' h
          refine ⟨okLeafEntry n :: es', ?_, by simp [hlen], ?_, ?_⟩
          · simpa using htr
          · simpa [okLeafEntry, TraceEntry.name] using hnames
          · intro e he
            rcases List.mem_cons.mp he with h1 | h2
            · simp [h1, okLeafEntry, TraceEntry.ok]
            · exact hok e h2
      | error e =>
          rw [chainSpec, htask] at h
          exact absurd h (by simp)

/-- The failing branches of a parallel task mapping on input `x`, in
declaration order: key and raw thrown value. -/
def branchFailures (tasks : List (String × Task)) (x : JSValue) :
    List (String × JSValue) :=
  tasks.filterMap fun p =>
    match (p.2 x).result with
    | Except.error e => some (p.1, e)
    | _ => none

/-- The succeeding branches of a parallel task mapping on input `x`, in
declaration order: key and output. -/
def branchSuccesses (tasks : List (String × Task)) (x : JSValue) :
    List (String × JSValue) :=
  tasks.filterMap fun p =>
    match (p.2 x).result with
    | Except.ok o => some (p.1, o)
    | _ => none

/-- The leaf trace entry a parallel branch contributes. -/
def branchEntry (name : String) (x : JSValue) (p : String × Task) : TraceEntry :=
  match (p.2 x).result with
  | Except.ok _ => okLeafEntry (name ++ "::" ++ p.1)
  | Except.error e => failLeafEntry (name ++ "::" ++ p.1) e

theorem runTaskAttempt_traceEntry (name logLabel : String) (task : Task)
    (x : JSValue) (opts : WorkflowOptions) :
    (runTaskAttempt name logLabel task x opts).traceEntry =
      match (task x).result with
      | Except.ok _ => okLeafEntry name
      | Except.error e => failLeafEntry name e := by
  cases h : (task x).result <;>
    simp [runTaskAttempt, h, TaskAttemptResult.traceEntry]

theorem attempts_failures_eq (name : String) (tasks : List (String × Task))
    (x : JSValue) (opts : WorkflowOptions) :
    (tasks.map (branchAttempt name x opts)).filterMap attemptFailurePair =
      branchFailures tasks x := by
  induction tasks with
  | nil => simp [branchFailures]
  | cons p rest ih =>
      cases h : (p.2 x).result with
      | ok o =>
          simpa [branchFailures, branchAttempt, attemptFailurePair, h,
            runTaskAttempt_ok _ _ _ _ _ _ h, List.filterMap_cons] using ih
      | error e =>
          simpa [branchFailures, branchAttempt, attemptFailurePair, h,
            runTaskAttempt_error _ _ _ _ _ _ h, List.filterMap_cons] using ih

theorem attempts_successes_eq (name : String) (tasks : List (String × Task))
    (x : JSValue) (opts : WorkflowOptions) :
    (tasks.map (branchAttempt name x opts)).filterMap attemptSuccessPair =
      branchSuccesses tasks x := by
  induction tasks with
  | nil => simp [branchSuccesses]
  | cons p rest ih =>
      cases h : (p.2 x).result with
      | ok o =>
          simpa [branchSuccesses, branchAttempt, attemptSuccessPair, h,
            runTaskAttempt_ok _ _ _ _ _ _ h, List.filterMap_cons] using ih
      | error e =>
          simpa [branchSuccesses, branchAttempt, attemptSuccessPair, h,
            runTaskAttempt_error _ _ _ _ _ _ h, List.filterMap_cons] using ih

theorem attempts_children_eq (name : String) (tasks : List (String × Task))
    (x : JSValue) (opts : WorkflowOptions) :
    (tasks.map (branchAttempt name x opts)).map (fun p => p.2.traceEntry) =
      tasks.map (branchEntry name x) := by
  induction tasks with
  | nil => simp
  | cons p rest ih =>
      simp [branchAttempt, branchEntry, runTaskAttempt_traceEntry]

/-- Outcome of one sequential stage as a pure function of the incoming
`RunResult` (what `createSerialRunner` resolves or throws). -/
def serialOutcome (name : String) (task : Task) (r : RunResult) :
    Except Thrown RunResult :=
  match (task r.output).result with
  | Except.ok o => Except.ok { output := o, trace := r.trace ++ [okLeafEntry name] }
  | Except.error e =>
      Except.error (Thrown.structured (r.trace ++ [failLeafEntry name e]) e)

/-- Outcome of one fallback stage as a pure function of the incoming
`RunResult`. -/
def fallbackOutcome (name : String) (primaryTask fallbackTask : Task)
    (r : RunResult) : Except Thrown RunResult :=
  match (primaryTask r.output).result with
  | Except.ok o =>
      Except.ok { output := o, trace := r.trace ++
        [TraceEntry.mk name 0 true none
          (some [okLeafEntry (name ++ "::primary")])
          (some "Primary task succeeded; fallback not executed.")] }
  | Except.error primaryError =>
      match (fallbackTask r.output).result with
      | Except.ok o =>
          Except.ok { output := o, trace := r.trace ++
            [TraceEntry.mk name 0 true none
              (some [failLeafEntry (name ++ "::primary") primaryError,
                okLeafEntry (name ++ "::fallback")])
              (some ("Fallback executed after primary failure: " ++
                summarizeError primaryError))] }
      | Except.error fallbackError =>
          Except.error (Thrown.structured (r.trace ++
            [TraceEntry.mk name 0 false (some fallbackError)
              (some [failLeafEntry (name ++ "::primary") primaryError,
                failLeafEntry (name ++ "::fallback") fallbackError])
              (some ("Fallback failed after primary failure: " ++
                summarizeError primaryError))]) fallbackError)

/-- Outcome of one parallel stage as a pure function of the incoming
`RunResult`. -/
def parallelOutcome (name : String) (tasks : List (String × Task))
    (r : RunResult) : Except Thrown RunResult :=
  let failures := branchFailures tasks r.output
  let children := tasks.map (branchEntry name r.output)
  if failures.isEmpty then
    Except.ok
      { output := JSValue.vobj (branchSuccesses tasks r.output),
        trace := r.trace ++ [TraceEntry.mk name 0 true none (some children) none] }
  else
    Except.error (Thrown.structured (r.trace ++
      [TraceEntry.mk name 0 false (some (createParallelError name failures))
        (some children) none])
      (createParallelError name failures))

/-- Outcome of one declared stage as a pure function of the incoming
`RunResult`. -/
def stageOutcome (s : Stage) (r : RunResult) : Except Thrown RunResult :=
  match s with
  | Stage.step name task => serialOutcome name task r
  | Stage.fallback name p f => fallbackOutcome name p f r
  | Stage.parallel name tasks => parallelOutcome name tasks r

theorem appendLog_faultFree_cases (opts : WorkflowOptions) (lines : List String)
    (w : World) (res : Except Thrown Unit) (w' : World) (h : w.faults = [])
    (heq : appendLog opts lines w = (res, w')) :
    res = Except.ok () ∧ w'.faults = [] := by
  obtain ⟨w'', happ, hf⟩ := appendLog_faultFree opts lines w h
  rw [happ] at heq
  rw [Prod.mk.injEq] at heq
  exact ⟨heq.1.symm, heq.2 ▸ hf⟩

/-- The world after an `appendLog` call. -/
def appendLogWorld (opts : WorkflowOptions) (lines : List String) (w : World) : World :=
  (appendLog opts lines w).2

theorem appendLog_faultFree_eq (opts : WorkflowOptions) (lines : List String)
    (w : World) (h : w.faults = []) :
    appendLog opts lines w = (Except.ok (), appendLogWorld opts lines w) := by
  obtain ⟨w', happ, -⟩ := appendLog_faultFree opts lines w h
  rw [appendLogWorld, happ]

theorem appendLogWorld_faults (opts : WorkflowOptions) (lines : List String)
    (w : World) (h : w.faults = []) :
    (appendLogWorld opts lines w).faults = [] := by
  cases hd : opts.logDir <;> simp [appendLogWorld, appendLog, hd, h]

/-- Fallback stage with a fault-free log sink computes `fallbackOutcome`. -/
theorem createFallbackRunner_faultFree (name : String)
    (primaryTask fallbackTask : Task) (opts : WorkflowOptions) (previous : Fn)
    (input : JSValue) (w w₁ : World) (r : RunResult)
    (hprev : previous input w = (Except.ok r, w₁)) (hf : w₁.faults = []) :
    ∃ w₂, createFallbackRunner name primaryTask fallbackTask opts previous input w =
      (fallbackOutcome name primaryTask fallbackTask r, w₂) ∧ w₂.faults = [] := by
  cases hp : (primaryTask r.output).result with
  | ok o =>
      simp only [createFallbackRunner, RunM.bind_apply, hprev,
        runTaskAttempt_ok _ _ _ _ _ _ hp, appendLog_faultFree_eq _ _ _ hf,
        RunM.pure_apply, fallbackOutcome, hp]
      exact ⟨_, rfl, appendLogWorld_faults _ _ _ hf⟩
  | error ep =>
      cases hfb : (fallbackTask r.output).result with
      | ok o =>
          simp only [createFallbackRunner, RunM.bind_apply, hprev,
            runTaskAttempt_ok _ _ _ _ _ _ hfb, runTaskAttempt_error _ _ _ _ _ _ hp,
            appendLog_faultFree_eq _ _ _ hf, RunM.pure_apply, fallbackOutcome, hp, hfb]
          exact ⟨_, rfl, appendLogWorld_faults _ _ _ hf⟩
      | error ef =>
          simp only [createFallbackRunner, RunM.bind_apply, hprev,
            runTaskAttempt_error _ _ _ _ _ _ hp, runTaskAttempt_error _ _ _ _ _ _ hfb,
            appendLog_faultFree_eq _ _ _ hf, throwWithTrace, fallbackOutcome, hp, hfb]
          exact ⟨_, rfl, appendLogWorld_faults _ _ _ hf⟩

/-- Parallel stage with a fault-free log sink computes `parallelOutcome`. -/
theorem createParallelRunner_faultFree (name : String)
    (tasks : List (String × Task)) (opts : WorkflowOptions) (previous : Fn)
    (input : JSValue) (w w₁ : World) (r : RunResult)
    (hprev : previous input w = (Except.ok r, w₁)) (hf : w₁.faults = []) :
    ∃ w₂, createParallelRunner name tasks opts previous input w =
      (parallelOutcome name tasks r, w₂) ∧ w₂.faults = [] := by
  cases hemp : (branchFailures tasks r.output).isEmpty with
  | true =>
      simp only [createParallelRunner, RunM.bind_apply, hprev, attempts_failures_eq,
        attempts_successes_eq, attempts_children_eq, hemp, if_true,
        appendLog_faultFree_eq _ _ _ hf, RunM.pure_apply, parallelOutcome]
      exact ⟨_, rfl, appendLogWorld_faults _ _ _ hf⟩
  | false =>
      simp only [createParallelRunner, RunM.bind_apply, hprev, attempts_failures_eq,
        attempts_successes_eq, attempts_children_eq, hemp, Bool.false_eq_true,
        if_false, appendLog_faultFree_eq _ _ _ hf, throwWithTrace, parallelOutcome]
      exact ⟨_, rfl, appendLogWorld_faults _ _ _ hf⟩

/-- Serial stage with a fault-free log sink computes `serialOutcome`. -/
theorem createSerialRunner_faultFree (name : String) (task : Task)
    (opts : WorkflowOptions) (previous : Fn) (input : JSValue) (w w₁ : World)
    (r : RunResult) (hprev : previous input w = (Except.ok r, w₁))
    (hf : w₁.faults = []) :
    ∃ w₂, createSerialRunner name task opts previous input w =
      (serialOutcome name task r, w₂) ∧ w₂.faults = [] := by
  cases ht : (task r.output).result with
  | ok o =>
      obtain ⟨w₂, heq, hf₂⟩ :=
        createSerialRunner_ok name task opts previous input w w₁ r o hprev hf ht
      exact ⟨w₂, by rw [heq, serialOutcome, ht], hf₂⟩
  | error e =>
      obtain ⟨w₂, heq, hf₂⟩ :=
        createSerialRunner_fail name task opts previous input w w₁ r e hprev hf ht
      exact ⟨w₂, by rw [heq, serialOutcome, ht], hf₂⟩

/-- Any stage with a fault-free log sink computes `stageOutcome`. -/
theorem stageRunner_faultFree (opts : WorkflowOptions) (s : Stage) (previous : Fn)
    (input : JSValue) (w w₁ : World) (r : RunResult)
    (hprev : previous input w = (Except.ok r, w₁)) (hf : w₁.faults = []) :
    ∃ w₂, stageRunner opts s previous input w = (stageOutcome s r, w₂) ∧
      w₂.faults = [] := by
  cases s with
  | step name task =>
      exact createSerialRunner_faultFree name task opts previous input w w₁ r hprev hf
  | fallback name p f =>
      exact createFallbackRunner_faultFree name p f opts previous input w w₁ r hprev hf
  | parallel name tasks =>
      exact createParallelRunner_faultFree name tasks opts previous input w w₁ r hprev hf

/-- With no configured `logDir`, a serial stage computes `serialOutcome` and
leaves the world untouched. -/
theorem createSerialRunner_no_logDir (name : String) (task : Task)
    (opts : WorkflowOptions) (previous : Fn) (input : JSValue) (w w₁ : World)
    (r : RunResult) (hd : opts.logDir = none)
    (hprev : previous input w = (Except.ok r, w₁)) :
    createSerialRunner name task opts previous input w =
      (serialOutcome name task r, w₁) := by
  cases ht : (task r.output).result with
  | ok o =>
      simp only [createSerialRunner, RunM.bind_apply, hprev,
        runTaskAttempt_ok _ _ _ _ _ _ ht, appendLog_no_logDir _ _ _ hd,
        RunM.pure_apply, serialOutcome, ht]
  | error e =>
      simp only [createSerialRunner, RunM.bind_apply, hprev,
        runTaskAttempt_error _ _ _ _ _ _ ht, appendLog_no_logDir _ _ _ hd,
        throwWithTrace, serialOutcome, ht]

/-- With no configured `logDir`, a fallback stage computes `fallbackOutcome`
and leaves the world untouched. -/
theorem createFallbackRunner_no_logDir (name : String)
    (primaryTask fallbackTask : Task) (opts : WorkflowOptions) (previous : Fn)
    (input : JSValue) (w w₁ : World) (r : RunResult) (hd : opts.logDir = none)
    (hprev : previous input w = (Except.ok r, w₁)) :
    createFallbackRunner name primaryTask fallbackTask opts previous input w =
      (fallbackOutcome name primaryTask fallbackTask r, w₁) := by
  cases hp : (primaryTask r.output).result with
  | ok o =>
      simp only [createFallbackRunner, RunM.bind_apply, hprev,
        runTaskAttempt_ok _ _ _ _ _ _ hp, appendLog_no_logDir _ _ _ hd,
        RunM.pure_apply, fallbackOutcome, hp]
  | error ep =>
      cases hfb : (fallbackTask r.output).result with
      | ok o =>
          simp only [createFallbackRunner, RunM.bind_apply, hprev,
            runTaskAttempt_ok _ _ _ _ _ _ hfb, runTaskAttempt_error _ _ _ _ _ _ hp,
            appendLog_no_logDir _ _ _ hd, RunM.pure_apply, fallbackOutcome, hp, hfb]
      | error ef =>
          simp only [createFallbackRunner, RunM.bind_apply, hprev,
            runTaskAttempt_error _ _ _ _ _ _ hp, runTaskAttempt_error _ _ _ _ _ _ hfb,
            appendLog_no_logDir _ _ _ hd, throwWithTrace, fallbackOutcome, hp, hfb]

/-- With no configured `logDir`, a parallel stage computes `parallelOutcome`
and leaves the world untouched. -/
theorem createParallelRunner_no_logDir (name : String)
    (tasks : List (String × Task)) (opts : WorkflowOptions) (previous : Fn)
    (input : JSValue) (w w₁ : World) (r : RunResult) (hd : opts.logDir = none)
    (hprev : previous input w = (Except.ok r, w₁)) :
    createParallelRunner name tasks opts previous input w =
      (parallelOutcome name tasks r, w₁) := by
  cases hemp : (branchFailures tasks r.output).isEmpty with
  | true =>
      simp only [createParallelRunner, RunM.bind_apply, hprev, attempts_failures_eq,
        attempts_successes_eq, attempts_children_eq, hemp, if_true,
        appendLog_no_logDir _ _ _ hd, RunM.pure_apply, parallelOutcome]
  | false =>
      simp only [createParallelRunner, RunM.bind_apply, hprev, attempts_failures_eq,
        attempts_successes_eq, attempts_children_eq, hemp, Bool.false_eq_true,
        if_false, appendLog_no_logDir _ _ _ hd, throwWithTrace, parallelOutcome]

/-- With no configured `logDir`, any stage computes `stageOutcome` and leaves
the world untouched. -/
theorem stageRunner_no_logDir (opts : WorkflowOptions) (s : Stage) (previous : Fn)
    (input : JSValue) (w w₁ : World) (r : RunResult) (hd : opts.logDir = none)
    (hprev : previous input w = (Except.ok r, w₁)) :
    stageRunner opts s previous input w = (stageOutcome s r, w₁) := by
  cases s with
  | step name task =>
      exact createSerialRunner_no_logDir name task opts previous input w w₁ r hd hprev
  | fallback name p f =>
      exact createFallbackRunner_no_logDir name p f opts previous input w w₁ r hd hprev
  | parallel name tasks =>
      exact createParallelRunner_no_logDir name tasks opts previous input w w₁ r hd hprev

theorem buildFrom_append (opts : WorkflowOptions) (xs ys : List Stage) :
    ∀ base : Fn, buildFrom opts base (xs ++ ys) =
      buildFrom opts (buildFrom opts base xs) ys := by
  induction xs with
  | nil => intro base; rfl
  | cons s rest ih => intro base; simpa [buildFrom] using ih (stageRunner opts s base)

theorem chainSpec_append (xs ys : List (String × Task)) :
    ∀ r, chainSpec r (xs ++ ys) =
      match chainSpec r xs with
      | Except.ok r1 => chainSpec r1 ys
      | Except.error err => Except.error err := by
  induction xs with
  | nil => intro r; simp [chainSpec]
  | cons p rest ih =>
      intro r
      obtain ⟨n, t⟩ := p
      cases h : (t r.output).result <;> simp [chainSpec, h, ih]

/-- `f` touches no log-file state: it leaves the world unchanged and its
outcome does not depend on the world. -/
def NoLogWrites (f : Fn) : Prop :=
  ∀ input w, (f input w).2 = w ∧ ∀ w', (f input w).1 = (f input w').1

theorem startFn_NoLogWrites : NoLogWrites startFn :=
  fun input w => ⟨rfl, fun w' => rfl⟩

theorem stageRunner_NoLogWrites (opts : WorkflowOptions) (s : Stage) (base : Fn)
    (hd : opts.logDir = none) (hb : NoLogWrites base) :
    NoLogWrites (stageRunner opts s base) := by
  intro input w
  have pair_eq : ∀ w0 : World, base input w0 = ((base input w0).1, w0) :=
    fun w0 => Prod.ext_iff.mpr ⟨rfl, (hb input w0).1⟩
  cases hres : (base input w).1 with
  | error th =>
      have hbw : base input w = (Except.error th, w) := by rw [pair_eq w, hres]
      have hrun := stageRunner_propagate opts s base input w w th hbw
      refine ⟨by rw [hrun], ?_⟩
      intro w'
      have hbw' : base input w' = (Except.error th, w') := by
        rw [pair_eq w', ← (hb input w).2 w', hres]
      have hrun' := stageRunner_propagate opts s base input w' w' th hbw'
      rw [hrun, hrun']
  | ok r =>
      have hbw : base input w = (Except.ok r, w) := by rw [pair_eq w, hres]
      have hrun := stageRunner_no_logDir opts s base input w w r hd hbw
      refine ⟨by rw [hrun], ?_⟩
      intro w'
      have hbw' : base input w' = (Except.ok r, w') := by
        rw [pair_eq w', ← (hb input w).2 w', hres]
      have hrun' := stageRunner_no_logDir opts s base input w' w' r hd hbw'
      rw [hrun, hrun']

theorem buildFrom_NoLogWrites (opts : WorkflowOptions) (hd : opts.logDir = none)
    (stages : List Stage) :
    ∀ base : Fn, NoLogWrites base → NoLogWrites (buildFrom opts base stages) := by
  induction stages with
  | nil => intro base hb; exact hb
  | cons s rest ih =>
      intro base hb
      exact ih (stageRunner opts s base) (stageRunner_NoLogWrites opts s base hd hb)

theorem createParallelError_single (name key : String) (e : JSValue) :
    createParallelError name [(key, e)] =
      (if e.isErrorValue then e
       else JSValue.verror
         ("Parallel branch \"" ++ key ++ "\" failed: " ++ summarizeError e) []) := by
  cases e <;> simp [createParallelError, JSValue.isErrorValue]

theorem createParallelError_multi (name : String)
    (failures : List (String × JSValue)) (h : 2 ≤ failures.length) :
    createParallelError name failures =
      JSValue.verror
        (String.intercalate "\n"
          (("Parallel step \"" ++ name ++ "\" failed in " ++
              toString failures.length ++ " branches:") ::
            failures.map (fun p => "- " ++ p.1 ++ ": " ++ summarizeError p.2)))
        (failures.map Prod.snd) := by
  cases failures with
  | nil => exact absurd h (by simp)
  | cons a tail =>
      cases tail with
      | nil => exact absurd h (by simp)
      | cons b tail2 =>
          obtain ⟨k1, e1⟩ := a
          obtain ⟨k2, e2⟩ := b
          rfl

/-- The value a task resolves with (its thrown value when it fails; only used
under a success hypothesis). -/
def taskOutput (t : Task) (x : JSValue) : JSValue :=
  match (t x).result with
  | Except.ok o => o
  | Except.error e => e

theorem branchFailures_nil_of_all_ok (tasks : List (String × Task)) (x : JSValue)
    (hall : ∀ p ∈ tasks, ∃ o, ((p.2 : Task) x).result = Except.ok o) :
    branchFailures tasks x = [] := by
  induction tasks with
  | nil => rfl
  | cons p rest ih =>
      obtain ⟨o, ho⟩ := hall p (List.mem_cons_self p rest)
      have hrest := ih (fun q hq => hall q (List.mem_cons_of_mem p hq))
      simp only [branchFailures, List.filterMap_cons, ho] at hrest ⊢
      exact hrest

theorem branchSuccesses_all_ok (tasks : List (String × Task)) (x : JSValue)
    (hall : ∀ p ∈ tasks, ∃ o, ((p.2 : Task) x).result = Except.ok o) :
    branchSuccesses tasks x = tasks.map (fun p => (p.1, taskOutput p.2 x)) := by
  induction tasks with
  | nil => rfl
  | cons p rest ih =>
      obtain ⟨o, ho⟩ := hall p (List.mem_cons_self p rest)
      have hrest := ih (fun q hq => hall q (List.mem_cons_of_mem p hq))
      simp only [branchSuccesses, List.filterMap_cons, ho, List.map_cons,
        taskOutput] at hrest ⊢
      simp [hrest, ho]

theorem branchEntries_all_ok (name : String) (tasks : List (String × Task))
    (x : JSValue)
    (hall : ∀ p ∈ tasks, ∃ o, ((p.2 : Task) x).result = Except.ok o) :
    tasks.map (branchEntry name x) =
      tasks.map (fun p => okLeafEntry (name ++ "::" ++ p.1)) := by
  induction tasks with
  | nil => rfl
  | cons p rest ih =>
      obtain ⟨o, ho⟩ := hall p (List.mem_cons_self p rest)
      have hrest := ih (fun q hq => hall q (List.mem_cons_of_mem p hq))
      simp only [List.map_cons, hrest, branchEntry, ho]

/-- C3: for every parallel stage in which at least one branch fails, the run
throws the structured failure carrying `createParallelError` of the failing
branches in declaration order (`branchFailures` is the declaration-ordered
`filterMap`); with exactly one failing branch the surfaced error is that
branch's own error, wrapped in a descriptive `Error` only when it was not
already an `Error` instance; with two or more failing branches it is a
composite `Error` whose message enumerates every failing branch key with its
error summary and whose `causes` list holds the raw per-branch errors in the
declaration order of the failing branches.  Stated for a fault-free log sink. -/
theorem C3_parallel_failure_error (name : String) (tasks : List (String × Task))
    (opts : WorkflowOptions) (previous : Fn) (input : JSValue) (w w₁ : World)
    (r : RunResult) (hprev : previous input w = (Except.ok r, w₁))
    (hf : w₁.faults = []) (hne : branchFailures tasks r.output ≠ []) :
    ∃ w2, createParallelRunner name tasks opts previous input w =
        (Except.error (Thrown.structured
          (r.trace ++ [TraceEntry.mk name 0 false
            (some (createParallelError name (branchFailures tasks r.output)))
            (some (tasks.map (branchEntry name r.output))) none])
          (createParallelError name (branchFailures tasks r.output))), w2) ∧
      (∀ k e, branchFailures tasks r.output = [(k, e)] →
        createParallelError name (branchFailures tasks r.output) =
          (if e.isErrorValue then e
           else JSValue.verror
             ("Parallel branch \"" ++ k ++ "\" failed: " ++ summarizeError e) [])) ∧
      (2 ≤ (branchFailures tasks r.output).length →
        createParallelError name (branchFailures tasks r.output) =
          JSValue.verror
            (String.intercalate "\n"
              (("Parallel step \"" ++ name ++ "\" failed in " ++
                  toString (branchFailures tasks r.output).length ++ " branches:") ::
                (branchFailures tasks r.output).map
                  (fun p => "- " ++ p.1 ++ ": " ++ summarizeError p.2)))
            ((branchFailures tasks r.output).map Prod.snd)) := by
  obtain ⟨w2, heq, hf2⟩ := createParallelRunner_faultFree name tasks opts previous
    input w w₁ r hprev hf
  have hempty : (branchFailures tasks r.output).isEmpty = false := by
    cases hcase : branchFailures tasks r.output with
    | nil => exact absurd hcase hne
    | cons a l => rfl
  refine ⟨w2, ?_, ?_, ?_⟩
  · rw [heq]
    simp [parallelOutcome, hempty]
  · intro k e hke
    rw [hke]
    exact createParallelError_single name k e
  · intro h2
    exact createParallelError_multi name _ h2

/-- C4: for every linear chain of sequential stages whose first k-1 stages
succeed and whose k-th stage fails, run rejects with the structured
`{trace, error}` object whose trace has exactly k entries — the first k-1
`ok:true`, in declaration order, and the k-th `ok:false` — and the result does
not depend on the stages declared after k (`post` is universally quantified
and absent from the conclusion: no later task is ever executed).  Stated for a
fault-free log sink. -/
theorem C4_chain_first_failure (opts : WorkflowOptions)
    (pre : List (String × Task)) (n : String) (t : Task) (post : List Stage)
    (input : JSValue) (w : World) (hw : w.faults = []) (rp : RunResult)
    (hpre : chainSpec startResult pre = Except.ok rp)
    (e : JSValue) (hfail : (t rp.output).result = Except.error e) :
    ∃ w2, buildFrom opts startFn
        (pre.map stepStage ++ (Stage.step n t :: post)) input w =
        (Except.error (Thrown.structured (rp.trace ++ [failLeafEntry n e]) e), w2) ∧
      (rp.trace ++ [failLeafEntry n e]).length = pre.length + 1 ∧
      (rp.trace ++ [failLeafEntry n e]).map TraceEntry.name =
        pre.map Prod.fst ++ [n] ∧
      (∀ x ∈ rp.trace, x.ok = true) ∧ (failLeafEntry n e).ok = false := by
  have hbase : startFn input w = (Except.ok startResult, w) := rfl
  have hchain : chainSpec startResult (pre ++ [(n, t)]) =
      Except.error (rp.trace ++ [failLeafEntry n e], e) := by
    simp [chainSpec_append, hpre, chainSpec, hfail]
  obtain ⟨w2, heq, hf2⟩ := buildSteps_eq_chainSpec opts (pre ++ [(n, t)]) startFn
    input w w startResult hbase hw
  rw [hchain] at heq
  have hprop := buildFrom_propagate opts post
    (buildFrom opts startFn ((pre ++ [(n, t)]).map stepStage)) input w w2
    (Thrown.structured (rp.trace ++ [failLeafEntry n e]) e)
    (by simpa [liftChain] using heq)
  obtain ⟨es, htr, hlen, hnames, hok⟩ := chainSpec_ok_shape pre startResult rp hpre
  have hes : rp.trace = es := by simpa [startResult] using htr
  have hsplit : pre.map stepStage ++ (Stage.step n t :: post) =
      ((pre ++ [(n, t)]).map stepStage) ++ post := by
    simp [stepStage]
  refine ⟨w2, ?_, ?_, ?_, ?_, rfl⟩
  · rw [hsplit, buildFrom_append]
    exact hprop
  · simp [hes, hlen]
  · simp [hes, hnames, failLeafEntry, TraceEntry.name]
  · intro x hx
    exact hok x (hes ▸ hx)

/-- C5: for every fallback stage whose primary task and fallback task both
fail, the fallback task was invoked with the same input the primary received
(`r.output`, the prior stage's output — both hypotheses apply the tasks to
it), the stage's composite trace entry is `ok:false` with exactly two children
(the primary and fallback attempts), the propagated error is the FALLBACK's
error `ef` (not the primary's), and the primary's failure is recorded in the
entry's note.  Stated for a fault-free log sink. -/
theorem C5_fallback_both_fail (name : String) (primaryTask fallbackTask : Task)
    (opts : WorkflowOptions) (previous : Fn) (input : JSValue) (w w₁ : World)
    (r : RunResult) (ep ef : JSValue)
    (hprev : previous input w = (Except.ok r, w₁)) (hf : w₁.faults = [])
    (hp : (primaryTask r.output).result = Except.error ep)
    (hfb : (fallbackTask r.output).result = Except.error ef) :
    ∃ w2, createFallbackRunner name primaryTask fallbackTask opts previous input w =
      (Except.error (Thrown.structured (r.trace ++
        [TraceEntry.mk name 0 false (some ef)
          (some [failLeafEntry (name ++ "::primary") ep,
            failLeafEntry (name ++ "::fallback") ef])
          (some ("Fallback failed after primary failure: " ++ summarizeError ep))])
        ef), w2) ∧ w2.faults = [] := by
  obtain ⟨w2, heq, hf2⟩ := createFallbackRunner_faultFree name primaryTask
    fallbackTask opts previous input w w₁ r hprev hf
  refine ⟨w2, ?_, hf2⟩
  rw [heq]
  simp only [fallbackOutcome, hp, hfb]

/-- C6: for every fallback stage whose primary task succeeds, the fallback
task is never invoked (it is universally quantified and absent from the
conclusion), the stage's output is the primary's output, and the composite
trace entry is `ok:true` with exactly one child (the primary attempt) and a
note recording that the fallback was skipped.  Stated for a fault-free log
sink. -/
theorem C6_fallback_primary_ok (name : String) (primaryTask fallbackTask : Task)
    (opts : WorkflowOptions) (previous : Fn) (input : JSValue) (w w₁ : World)
    (r : RunResult) (o : JSValue)
    (hprev : previous input w = (Except.ok r, w₁)) (hf : w₁.faults = [])
    (hp : (primaryTask r.output).result = Except.ok o) :
    ∃ w2, createFallbackRunner name primaryTask fallbackTask opts previous input w =
      (Except.ok { output := o, trace := r.trace ++
        [TraceEntry.mk name 0 true none
          (some [okLeafEntry (name ++ "::primary")])
          (some "Primary task succeeded; fallback not executed.")] }, w2) ∧
      w2.faults = [] := by
  obtain ⟨w2, heq, hf2⟩ := createFallbackRunner_faultFree name primaryTask
    fallbackTask opts previous input w w₁ r hprev hf
  refine ⟨w2, ?_, hf2⟩
  rw [heq]
  simp only [fallbackOutcome, hp]

/-- C7: for every parallel stage in which every branch succeeds, every branch
task receives the identical upstream output `r.output`, the stage's output is
the object whose keys are exactly the task mapping's keys in declaration order
with each value the branch's output, and the composite trace entry's children
hold one ok leaf per branch in declaration order.  Stated for a fault-free log
sink. -/
theorem C7_parallel_all_success (name : String) (tasks : List (String × Task))
    (opts : WorkflowOptions) (previous : Fn) (input : JSValue) (w w₁ : World)
    (r : RunResult) (hprev : previous input w = (Except.ok r, w₁))
    (hf : w₁.faults = [])
    (hall : ∀ p ∈ tasks, ∃ o, ((p.2 : Task) r.output).result = Except.ok o) :
    ∃ w2, createParallelRunner name tasks opts previous input w =
      (Except.ok
        { output := JSValue.vobj (tasks.map (fun p => (p.1, taskOutput p.2 r.output))),
          trace := r.trace ++
            [TraceEntry.mk name 0 true none
              (some (tasks.map (fun p => okLeafEntry (name ++ "::" ++ p.1)))) none] },
        w2) ∧ w2.faults = [] := by
  obtain ⟨w2, heq, hf2⟩ := createParallelRunner_faultFree name tasks opts previous
    input w w₁ r hprev hf
  refine ⟨w2, ?_, hf2⟩
  rw [heq]
  simp [parallelOutcome, branchFailures_nil_of_all_ok tasks r.output hall,
    branchSuccesses_all_ok tasks r.output hall,
    branchEntries_all_ok name tasks r.output hall]

/-- C8: for every linear chain of N sequential stages where every task
succeeds, run resolves to a `RunResult` whose trace has exactly N entries, one
per stage in declaration order, each `ok:true`, and whose output is the output
of the last stage's task.  Stated for a fault-free log sink. -/
theorem C8_chain_all_ok (opts : WorkflowOptions) (pre : List (String × Task))
    (n : String) (t : Task) (input : JSValue) (w : World) (hw : w.faults = [])
    (rp : RunResult) (hpre : chainSpec startResult pre = Except.ok rp)
    (o : JSValue) (hlast : (t rp.output).result = Except.ok o) :
    ∃ w2, buildFrom opts startFn ((pre ++ [(n, t)]).map stepStage) input w =
        (Except.ok { output := o, trace := rp.trace ++ [okLeafEntry n] }, w2) ∧
      (rp.trace ++ [okLeafEntry n]).length = (pre ++ [(n, t)]).length ∧
      (rp.trace ++ [okLeafEntry n]).map TraceEntry.name =
        (pre ++ [(n, t)]).map Prod.fst ∧
      ∀ en ∈ rp.trace ++ [okLeafEntry n], en.ok = true := by
  have hbase : startFn input w = (Except.ok startResult, w) := rfl
  have hchain : chainSpec startResult (pre ++ [(n, t)]) =
      Except.ok { output := o, trace := rp.trace ++ [okLeafEntry n] } := by
    simp [chainSpec_append, hpre, chainSpec, hlast]
  obtain ⟨w2, heq, hf2⟩ := buildSteps_eq_chainSpec opts (pre ++ [(n, t)]) startFn
    input w w startResult hbase hw
  rw [hchain] at heq
  obtain ⟨es, htr, hlen, hnames, hok⟩ :=
    chainSpec_ok_shape (pre ++ [(n, t)]) startResult _ hchain
  have hes : rp.trace ++ [okLeafEntry n] = es := by simpa [startResult] using htr
  refine ⟨w2, by simpa [liftChain] using heq, ?_, ?_, ?_⟩
  · rw [hes, hlen]
  · rw [hes, hnames]
  · intro en hen
    exact hok en (hes ▸ hen)

/-- C9: `runTaskAttempt` never lets a task's exception escape: it is a total
function into `TaskAttemptResult` (the embedding of the full-body `try/catch`)
returning `{ok:true, output, durationMs, traceEntry}` when the task resolves
and `{ok:false, error, durationMs, traceEntry}` carrying the task's thrown
value as-is when it throws, so callers reach the error branch only through the
returned value. -/
theorem C9_runTaskAttempt_total (name logLabel : String) (task : Task)
    (input : JSValue) (opts : WorkflowOptions) :
    (∀ o, (task input).result = Except.ok o →
      runTaskAttempt name logLabel task input opts =
        TaskAttemptResult.success o 0
          ((task input).logCalls.map (renderLogLine logLabel)) (okLeafEntry name)) ∧
    (∀ e, (task input).result = Except.error e →
      runTaskAttempt name logLabel task input opts =
        TaskAttemptResult.failure e 0
          ((task input).logCalls.map (renderLogLine logLabel))
          (failLeafEntry name e)) :=
  ⟨fun o h => runTaskAttempt_ok name logLabel task input opts o h,
   fun e h => runTaskAttempt_error name logLabel task input opts e h⟩

/-- C10: with no configured `logDir` (e.g. `Workflow.start()` with no
options), `appendLog` returns without any file write, the whole run leaves the
log-file world untouched, and the run's outcome — `RunResult` or thrown
`{trace, error}` — does not depend on the log-file world at all. -/
theorem C10_no_logDir_frame (opts : WorkflowOptions) (hd : opts.logDir = none)
    (stages : List Stage) (lines : List String) (input : JSValue) (w w' : World) :
    appendLog opts lines w = (Except.ok (), w) ∧
    (buildFrom opts startFn stages input w).2 = w ∧
    (buildFrom opts startFn stages input w).1 =
      (buildFrom opts startFn stages input w').1 := by
  have h := buildFrom_NoLogWrites opts hd stages startFn startFn_NoLogWrites
  exact ⟨appendLog_no_logDir opts lines w hd, (h input w).1, (h input w).2 w'⟩

/-- A task that resolves with the given number and logs nothing. -/
def constNumTask (k : Int) : Task :=
  fun _ => { result := Except.ok (JSValue.vnum k), logCalls := [] }

/-- A task that throws the given string and logs nothing. -/
def failTask (msg : String) : Task :=
  fun _ => { result := Except.error (JSValue.vstr msg), logCalls := [] }

/-- Options with a configured log directory. -/
def c1Opts : WorkflowOptions :=
  { logDir := some "logs", logFile := none, verbose := false }

/-- A one-step pipeline (succeeding task) with a configured log directory. -/
def c1Chain : Fn := createSerialRunner "step1" (constNumTask 1) c1Opts startFn

/-- A world whose next `fs.appendFile` call rejects. -/
def c1FaultWorld : World :=
  { faults := [some (JSValue.vstr "EACCES: permission denied")], fileWrites := [] }

/-- A world in which every `fs.appendFile` call resolves. -/
def cleanWorld : World := { faults := [], fileWrites := [] }

/-- Discriminates a run outcome that escaped as a raw (non-`{trace, error}`)
exception. -/
def isRawFailure : Except Thrown RunResult → Bool
  | Except.error (Thrown.raw _) => true
  | _ => false

/-- C1 counterexample: the claim — that a failing log append is caught and the
run's outcome is identical to the all-appends-succeed outcome — is false.  On
a one-step pipeline with `logDir` configured and a succeeding task, a
rejecting `fs.appendFile` makes the run reject with the raw fs error (nothing
catches it: `appendLog`, workflow.ts:192-197, and its callers have no
try/catch), while the fault-free run resolves; the two outcomes differ. -/
theorem C1_counterexample :
    isRawFailure (c1Chain JSValue.vundefined c1FaultWorld).1 = true ∧
    isRawFailure (c1Chain JSValue.vundefined cleanWorld).1 = false ∧
    (c1Chain JSValue.vundefined c1FaultWorld).1 ≠
      (c1Chain JSValue.vundefined cleanWorld).1 :=
  ⟨rfl, rfl, fun h => absurd (congrArg isRawFailure h) (by decide)⟩

/-- C1 amended: log-sink I/O failures are NOT caught.  For every sequential
stage with a configured log directory whose prior stages resolved, if the
`fs.appendFile` call rejects with `e`, the run rejects with the raw error `e`
itself — not a structured `{trace, error}` failure — regardless of whether the
stage's task succeeded or failed; the documented `{trace, error}` shaping and
`RunResult` are produced only when every append resolves (the fault-free
characterizations proved elsewhere in this file). -/
theorem C1_sink_fault_aborts (name : String) (task : Task)
    (opts : WorkflowOptions) (dir : String) (previous : Fn) (input : JSValue)
    (w w₁ : World) (r : RunResult) (e : JSValue) (rest : List (Option JSValue))
    (hdir : opts.logDir = some dir)
    (hprev : previous input w = (Except.ok r, w₁))
    (hfaults : w₁.faults = some e :: rest) :
    createSerialRunner name task opts previous input w =
      (Except.error (Thrown.raw e),
       { faults := rest, fileWrites := w₁.fileWrites }) := by
  cases ht : (task r.output).result with
  | ok o =>
      simp only [createSerialRunner, RunM.bind_apply, hprev,
        runTaskAttempt_ok _ _ _ _ _ _ ht, appendLog_fault _ _ _ _ _ _ hdir hfaults]
  | error e2 =>
      simp only [createSerialRunner, RunM.bind_apply, hprev,
        runTaskAttempt_error _ _ _ _ _ _ ht, appendLog_fault _ _ _ _ _ _ hdir hfaults]

theorem C1_sink_fault_aborts_witness :
    c1Chain JSValue.vundefined c1FaultWorld =
      (Except.error (Thrown.raw (JSValue.vstr "EACCES: permission denied")),
       { faults := [], fileWrites := [] }) :=
  C1_sink_fault_aborts "step1" (constNumTask 1) c1Opts "logs" startFn
    JSValue.vundefined c1FaultWorld c1FaultWorld startResult
    (JSValue.vstr "EACCES: permission denied") [] rfl rfl rfl

/-- A task used in the C2 scenario. -/
def c2Task : Task := fun _ => { result := Except.ok JSValue.vnull, logCalls := [] }

def c2Dummy : Workflow × Heap :=
  ({ fn := startFn, opts := defaultOptions, graphBuilder := 0, tailNodeId := "" }, [])

/-- The workflow/heap pair returned by `Workflow.start()` (no options). -/
def c2Pair0 : Workflow × Heap := (Workflow.start none []).getD c2Dummy

/-- The pair after chaining one step onto the started workflow. -/
def c2Pair1 : Workflow × Heap :=
  (Workflow.step c2Pair0.1 "classify" c2Task c2Pair0.2).getD c2Dummy

/-- C2 counterexample: the claim — that a previously returned handle's
`getGraphSnapshot()` result is unchanged by later chaining calls — is false.
After `w1 = w0.step(...)`, the ORIGINAL handle `w0` reports 2 graph nodes
instead of 1, because both handles share one mutated `WorkflowGraphBuilder`
(workflow.ts:110 passes `this.graphBuilder` into the new `Workflow`). -/
theorem C2_counterexample :
    (Workflow.getGraphSnapshot c2Pair0.1 c2Pair1.2).nodes.length = 2 ∧
    (Workflow.getGraphSnapshot c2Pair0.1 c2Pair0.2).nodes.length = 1 ∧
    Workflow.getGraphSnapshot c2Pair0.1 c2Pair1.2 ≠
      Workflow.getGraphSnapshot c2Pair0.1 c2Pair0.2 :=
  ⟨rfl, rfl,
   fun h => absurd (congrArg (fun s => s.nodes.length) h) (by decide)⟩

theorem heapGet_set_self (heap : Heap) (i : Nat) (b : WorkflowGraphBuilder)
    (h : i < heap.length) : heapGet (heap.set i b) i = b := by
  simp [heapGet, List.getD, List.getElem?_set_self, h]

/-- C2 amended: every chaining call returns a NEW `Workflow` value — for
`step`, one whose execution function wraps the previous handle's `fn` in a
serial runner — and never reassigns the prior handle's fields, so the prior
handle's run behavior is unaffected.  The graph builder, however, is shared
by reference: after the call, the OLD handle's `getGraphSnapshot()` equals the
new handle's and has grown by exactly the appended step node and edge (it is
not the snapshot the old handle reported before the call). -/
theorem C2_step_shared_builder (w : Workflow) (heap : Heap) (name : String)
    (task : Task) (w' : Workflow) (heap' : Heap)
    (hstep : Workflow.step w name task heap = some (w', heap'))
    (hvalid : w.graphBuilder < heap.length) :
    w'.fn = createSerialRunner name task w.opts w.fn ∧
    w'.opts = w.opts ∧ w'.graphBuilder = w.graphBuilder ∧
    Workflow.getGraphSnapshot w heap' = Workflow.getGraphSnapshot w' heap' ∧
    (Workflow.getGraphSnapshot w heap').nodes =
      (Workflow.getGraphSnapshot w heap).nodes ++
        [{ id := WorkflowGraphNodeKind.step.label ++ "-" ++
             toString ((heapGet heap w.graphBuilder).counter + 1),
           name := name, kind := WorkflowGraphNodeKind.step, metadata := none }] ∧
    (Workflow.getGraphSnapshot w heap').edges =
      (Workflow.getGraphSnapshot w heap).edges ++
        [{ src := w.tailNodeId,
           dst := WorkflowGraphNodeKind.step.label ++ "-" ++
             toString ((heapGet heap w.graphBuilder).counter + 1),
           label := none }] := by
  unfold Workflow.step at hstep
  cases hreg : registerStepGraph (heapGet heap w.graphBuilder) w.tailNodeId name with
  | none => rw [hreg] at hstep; exact absurd hstep (by simp)
  | some pr =>
      obtain ⟨nextTail, b1⟩ := pr
      rw [hreg] at hstep
      rw [Option.some.injEq, Prod.mk.injEq] at hstep
      obtain ⟨hw', hheap'⟩ := hstep
      subst hw' hheap'
      unfold registerStepGraph at hreg
      cases hadd : (heapGet heap w.graphBuilder).addNode
          WorkflowGraphNodeKind.step name none with
      | none => rw [hadd] at hreg; exact absurd hreg (by simp)
      | some pr2 =>
          obtain ⟨nodeId, b0⟩ := pr2
          rw [hadd] at hreg
          rw [Option.some.injEq, Prod.mk.injEq] at hreg
          obtain ⟨hid, hb1⟩ := hreg
          subst hid hb1
          simp only [WorkflowGraphBuilder.addNode] at hadd
          split at hadd
          · exact absurd hadd (by simp)
          · rw [Option.some.injEq, Prod.mk.injEq] at hadd
            obtain ⟨hid2, hb0⟩ := hadd
            subst hid2 hb0
            refine ⟨rfl, rfl, rfl, rfl, ?_, ?_⟩
            · simp [Workflow.getGraphSnapshot, heapGet_set_self _ _ _ hvalid,
                WorkflowGraphBuilder.snapshot, WorkflowGraphBuilder.addEdge]
            · simp [Workflow.getGraphSnapshot, heapGet_set_self _ _ _ hvalid,
                WorkflowGraphBuilder.snapshot, WorkflowGraphBuilder.addEdge]

theorem C2_step_shared_builder_witness :
    c2Pair1.1.fn = createSerialRunner "classify" c2Task c2Pair0.1.opts c2Pair0.1.fn ∧
    Workflow.getGraphSnapshot c2Pair0.1 c2Pair1.2 =
      Workflow.getGraphSnapshot c2Pair1.1 c2Pair1.2 ∧
    (Workflow.getGraphSnapshot c2Pair0.1 c2Pair1.2).nodes =
      (Workflow.getGraphSnapshot c2Pair0.1 c2Pair0.2).nodes ++
        [{ id := WorkflowGraphNodeKind.step.label ++ "-" ++
             toString ((heapGet c2Pair0.2 c2Pair0.1.graphBuilder).counter + 1),
           name := "classify", kind := WorkflowGraphNodeKind.step,
           metadata := none }] := by
  have h := C2_step_shared_builder c2Pair0.1 c2Pair0.2 "classify" c2Task
    c2Pair1.1 c2Pair1.2 rfl (by decide)
  exact ⟨h.1, h.2.2.2.1, h.2.2.2.2.1⟩

def c3Tasks : List (String × Task) := [("a", failTask "boom"), ("b", failTask "crash")]

def c3AggError : JSValue :=
  createParallelError "analyze" (branchFailures c3Tasks JSValue.vundefined)

theorem C3_parallel_failure_error_witness :
    (∃ w2, createParallelRunner "analyze" c3Tasks defaultOptions startFn
        JSValue.vundefined cleanWorld =
      (Except.error (Thrown.structured
        [TraceEntry.mk "analyze" 0 false (some c3AggError)
          (some [failLeafEntry "analyze::a" (JSValue.vstr "boom"),
            failLeafEntry "analyze::b" (JSValue.vstr "crash")]) none]
        c3AggError), w2)) ∧
    c3AggError =
      JSValue.verror
        "Parallel step \"analyze\" failed in 2 branches:\n- a: boom\n- b: crash"
        [JSValue.vstr "boom", JSValue.vstr "crash"] := by
  obtain ⟨w2, heq, hsingle, hmulti⟩ := C3_parallel_failure_error "analyze" c3Tasks
    defaultOptions startFn JSValue.vundefined cleanWorld cleanWorld startResult rfl rfl
    (fun h => absurd (congrArg List.length h) (by decide))
  exact ⟨⟨w2, heq⟩, (hmulti (by decide)).trans (by rfl)⟩

theorem C4_chain_first_failure_witness :
    ∃ w2, buildFrom defaultOptions startFn
        ([("s1", constNumTask 1)].map stepStage ++
          (Stage.step "s2" (failTask "bad") :: [Stage.step "s3" (constNumTask 3)]))
        JSValue.vundefined cleanWorld =
        (Except.error (Thrown.structured
          ([okLeafEntry "s1"] ++ [failLeafEntry "s2" (JSValue.vstr "bad")])
          (JSValue.vstr "bad")), w2) ∧
      ([okLeafEntry "s1"] ++ [failLeafEntry "s2" (JSValue.vstr "bad")]).length =
        [("s1", constNumTask 1)].length + 1 ∧
      ([okLeafEntry "s1"] ++ [failLeafEntry "s2" (JSValue.vstr "bad")]).map
          TraceEntry.name =
        [("s1", constNumTask 1)].map Prod.fst ++ ["s2"] ∧
      (∀ x ∈ ([okLeafEntry "s1"] : List TraceEntry), x.ok = true) ∧
      (failLeafEntry "s2" (JSValue.vstr "bad")).ok = false :=
  C4_chain_first_failure defaultOptions [("s1", constNumTask 1)] "s2"
    (failTask "bad") [Stage.step "s3" (constNumTask 3)] JSValue.vundefined
    cleanWorld rfl { output := JSValue.vnum 1, trace := [okLeafEntry "s1"] } rfl
    (JSValue.vstr "bad") rfl

theorem C5_fallback_both_fail_witness :
    ∃ w2, createFallbackRunner "enrich" (failTask "p-err") (failTask "f-err")
        defaultOptions startFn JSValue.vundefined cleanWorld =
      (Except.error (Thrown.structured
        [TraceEntry.mk "enrich" 0 false (some (JSValue.vstr "f-err"))
          (some [failLeafEntry "enrich::primary" (JSValue.vstr "p-err"),
            failLeafEntry "enrich::fallback" (JSValue.vstr "f-err")])
          (some "Fallback failed after primary failure: p-err")]
        (JSValue.vstr "f-err")), w2) ∧ w2.faults = [] :=
  C5_fallback_both_fail "enrich" (failTask "p-err") (failTask "f-err")
    defaultOptions startFn JSValue.vundefined cleanWorld cleanWorld startResult
    (JSValue.vstr "p-err") (JSValue.vstr "f-err") rfl rfl rfl rfl

theorem C6_fallback_primary_ok_witness :
    ∃ w2, createFallbackRunner "enrich" (constNumTask 5) (failTask "f-err")
        defaultOptions startFn JSValue.vundefined cleanWorld =
      (Except.ok
        { output := JSValue.vnum 5,
          trace := [TraceEntry.mk "enrich" 0 true none
            (some [okLeafEntry "enrich::primary"])
            (some "Primary task succeeded; fallback not executed.")] }, w2) ∧
      w2.faults = [] :=
  C6_fallback_primary_ok "enrich" (constNumTask 5) (failTask "f-err")
    defaultOptions startFn JSValue.vundefined cleanWorld cleanWorld startResult
    (JSValue.vnum 5) rfl rfl rfl

theorem C7_parallel_all_success_witness :
    ∃ w2, createParallelRunner "fan" [("a", constNumTask 1), ("b", constNumTask 2)]
        defaultOptions startFn JSValue.vundefined cleanWorld =
      (Except.ok
        { output := JSValue.vobj [("a", JSValue.vnum 1), ("b", JSValue.vnum 2)],
          trace := [TraceEntry.mk "fan" 0 true none
            (some [okLeafEntry "fan::a", okLeafEntry "fan::b"]) none] }, w2) ∧
      w2.faults = [] :=
  C7_parallel_all_success "fan" [("a", constNumTask 1), ("b", constNumTask 2)]
    defaultOptions startFn JSValue.vundefined cleanWorld cleanWorld startResult rfl rfl
    (by
      intro p hp
      simp only [List.mem_cons, List.not_mem_nil, or_false] at hp
      rcases hp with rfl | rfl
      · exact ⟨JSValue.vnum 1, rfl⟩
      · exact ⟨JSValue.vnum 2, rfl⟩)

theorem C8_chain_all_ok_witness :
    ∃ w2, buildFrom defaultOptions startFn
        (([("s1", constNumTask 1)] ++ [("s2", constNumTask 2)]).map stepStage)
        JSValue.vundefined cleanWorld =
        (Except.ok
          { output := JSValue.vnum 2,
            trace := [okLeafEntry "s1"] ++ [okLeafEntry "s2"] }, w2) ∧
      ([okLeafEntry "s1"] ++ [okLeafEntry "s2"]).length =
        ([("s1", constNumTask 1)] ++ [("s2", constNumTask 2)]).length ∧
      ([okLeafEntry "s1"] ++ [okLeafEntry "s2"]).map TraceEntry.name =
        ([("s1", constNumTask 1)] ++ [("s2", constNumTask 2)]).map Prod.fst ∧
      ∀ en ∈ [okLeafEntry "s1"] ++ [okLeafEntry "s2"], en.ok = true :=
  C8_chain_all_ok defaultOptions [("s1", constNumTask 1)] "s2" (constNumTask 2)
    JSValue.vundefined cleanWorld rfl
    { output := JSValue.vnum 1, trace := [okLeafEntry "s1"] } rfl (JSValue.vnum 2) rfl

def c9TaskOk : Task := fun _ => { result := Except.ok (JSValue.vnum 7), logCalls := [] }

def c9TaskThrow : Task :=
  fun _ => { result := Except.error (JSValue.vstr "boom"), logCalls := [] }

theorem C9_runTaskAttempt_total_witness :
    runTaskAttempt "classify" "classify" c9TaskOk JSValue.vnull defaultOptions =
      TaskAttemptResult.success (JSValue.vnum 7) 0 [] (okLeafEntry "classify") ∧
    runTaskAttempt "classify" "classify" c9TaskThrow JSValue.vnull defaultOptions =
      TaskAttemptResult.failure (JSValue.vstr "boom") 0 []
        (failLeafEntry "classify" (JSValue.vstr "boom")) :=
  ⟨(C9_runTaskAttempt_total "classify" "classify" c9TaskOk JSValue.vnull
      defaultOptions).1 (JSValue.vnum 7) rfl,
   (C9_runTaskAttempt_total "classify" "classify" c9TaskThrow JSValue.vnull
      defaultOptions).2 (JSValue.vstr "boom") rfl⟩

theorem C10_no_logDir_frame_witness :
    appendLog defaultOptions ["line"] c1FaultWorld = (Except.ok (), c1FaultWorld) ∧
    (buildFrom defaultOptions startFn [Stage.step "s1" (constNumTask 1)]
        JSValue.vundefined c1FaultWorld).2 = c1FaultWorld ∧
    (buildFrom defaultOptions startFn [Stage.step "s1" (constNumTask 1)]
        JSValue.vundefined c1FaultWorld).1 =
      (buildFrom defaultOptions startFn [Stage.step "s1" (constNumTask 1)]
        JSValue.vundefined cleanWorld).1 :=
  C10_no_logDir_frame defaultOptions rfl [Stage.step "s1" (constNumTask 1)]
    ["line"] JSValue.vundefined c1FaultWorld cleanWorld

end EmailWorkflow
